import Mathlib

/-!
Shallow embedding of `src/jpeg_rename.py` (SLCPython/jpeg_rename).

Python strings are modelled as `List Char` (the program only handles
ASCII filenames and EXIF timestamp strings, for which `Char.toLower`
coincides with Python's `str.lower`).  Filesystem facts (the directory
listing, `os.path.exists`) enter the pure model as explicit parameters,
and the two side-effecting collaborators (`move` and the executor
`process_file_map`) are modelled by the traces of the calls they make.
-/

/-- Python strings are modelled as lists of characters. -/
abbrev Str := List Char

/-- The characters of the literal `".jpg"` appended by the timestamp branch
of `get_new_fn` (line 71) and by the suffix rewrites of
`make_new_fn_unique` (lines 113-116). -/
def dotJpg : Str := ['.', 'j', 'p', 'g']

/-- The characters of `"jpeg"`, the tail of the fallback-rewrite pattern
`r'.jpeg$'` on line 69 (note: the leading `.` of that pattern is an
unescaped regex dot, matching any character except a newline). -/
def jpegChars : Str := ['j', 'p', 'e', 'g']

/-- The metadata key `'DateTimeOriginal'` consulted on line 54. -/
def dateTimeOriginal : Str := "DateTimeOriginal".data

/-- An EXIF value: the program's metadata mapping sends field names to
strings or to other (non-string) values; the non-string case is
represented by an integer, which is what matters for the truthiness test
on line 60 and for the `TypeError` that `re.match` raises on line 61 when
handed a non-string. -/
inductive ExifValue where
  | str (s : Str)
  | num (n : Int)
deriving DecidableEq

/-- Python dict lookup on the metadata mapping (line 54,
`exif_data['DateTimeOriginal']` wrapped in try/except KeyError). -/
def exifLookup (k : Str) : List (Str × ExifValue) → Option ExifValue
  | [] => none
  | (k', v) :: rest => if k' = k then some v else exifLookup k rest

/-- Python truthiness of an EXIF value, as tested by `if (new_fn and ...)`
on line 60: a string is truthy iff non-empty, a number iff non-zero. -/
def truthy : ExifValue → Bool
  | .str s => !s.isEmpty
  | .num n => decide (n ≠ 0)

/-- Python `str()` / `'{0}'.format(...)` rendering of an EXIF value
(line 71 formats the retained value into `"{0}.jpg"`). -/
def pyFormat : ExifValue → Str
  | .str s => s
  | .num n => (toString n).data

/-- The strict timestamp core pattern of line 61,
`\d{4}:\d\d:\d\d \d\d:\d\d:\d\d`, matched against the whole string. -/
def matchTsCore : Str → Bool
  | [y1, y2, y3, y4, ':', m1, m2, ':', d1, d2, ' ', h1, h2, ':', n1, n2, ':', s1, s2] =>
    y1.isDigit && y2.isDigit && y3.isDigit && y4.isDigit &&
    m1.isDigit && m2.isDigit && d1.isDigit && d2.isDigit &&
    h1.isDigit && h2.isDigit && n1.isDigit && n2.isDigit &&
    s1.isDigit && s2.isDigit
  | _ => false

/-- Python `re.match(r'^\d{4}:\d\d:\d\d \d\d:\d\d:\d\d$', s)` (line 61):
`$` matches at the end of the string or just before one trailing newline,
so the regex accepts the 19-character core or the core followed by a
single `'\n'`. -/
def reFullMatchTs (s : Str) : Bool :=
  matchTsCore s || (decide (s.getLast? = some '\n') && matchTsCore s.dropLast)

/-- Python `str.lower` (line 68); per-character ASCII lowercasing, which
agrees with Python on the ASCII filenames the program manipulates. -/
def lowerList (s : Str) : Str := s.map Char.toLower

/-- The rewrite of `re.sub(r'.jpeg$', r'.jpg', s)` (line 69) on the
reversed string: the pattern is any character other than `'\n'` (the
unescaped dot), then the literal `jpeg`, anchored at the end of the
string or just before one trailing newline. -/
def rewriteDotJpegRev : Str → Str
  | 'g' :: 'e' :: 'p' :: 'j' :: c :: t =>
    if c = '\n' then 'g' :: 'e' :: 'p' :: 'j' :: c :: t
    else 'g' :: 'p' :: 'j' :: '.' :: t
  | '\n' :: 'g' :: 'e' :: 'p' :: 'j' :: c :: t =>
    if c = '\n' then '\n' :: 'g' :: 'e' :: 'p' :: 'j' :: c :: t
    else '\n' :: 'g' :: 'p' :: 'j' :: '.' :: t
  | r => r

/-- Python `re.sub(r'.jpeg$', r'.jpg', s)` (line 69). -/
def rewriteDotJpeg (s : Str) : Str := (rewriteDotJpegRev s.reverse).reverse

/-- Python `re.sub(r':', r'', s)` (line 79): drop every colon. -/
def removeColons (s : Str) : Str := s.filter (fun c => c ≠ ':')

/-- Python `re.sub(r' ', r'_', s)` (line 80): replace every space by an
underscore. -/
def spaceToUnderscore (s : Str) : Str := s.map (fun c => if c = ' ' then '_' else c)

/-- The error a modelled Python fragment can raise: `re.match` raises
`TypeError` when its second argument is not a string (line 61 with a
truthy non-string EXIF value). -/
inductive PyErr where
  | typeError
deriving DecidableEq

deriving instance DecidableEq for Except

/-- Lines 52-63 of `get_new_fn`: fetch `DateTimeOriginal` (absent key
gives `None`), then `if (new_fn and not re.match(pattern, new_fn)): new_fn
= None`.  A truthy non-string value reaches `re.match`, which raises
`TypeError`; a falsy value (empty string, zero) short-circuits the `and`
and is retained as-is. -/
def validateTs : Option ExifValue → Except PyErr (Option ExifValue)
  | none => .ok none
  | some v =>
    if truthy v then
      match v with
      | .str s => if reFullMatchTs s then .ok (some (.str s)) else .ok none
      | .num _ => .error .typeError
    else .ok (some v)

/-- Function `get_new_fn` (lines 34-82): derive the candidate filename from the
EXIF `DateTimeOriginal` if it validates, otherwise lowercase the original
name and rewrite its `.jpeg`-like tail; in both branches remove colons
and replace spaces (lines 79-80). -/
def get_new_fn (old_fn : Str) (exif_data : List (Str × ExifValue)) : Except PyErr Str :=
  match validateTs (exifLookup dateTimeOriginal exif_data) with
  | .error e => .error e
  | .ok none => .ok (spaceToUnderscore (removeColons (rewriteDotJpeg (lowerList old_fn))))
  | .ok (some v) => .ok (spaceToUnderscore (removeColons (pyFormat v ++ dotJpg)))

/-- Decimal digit character for a value below ten (values from ten
onwards never occur: the argument is always `n % 10` or a value tested
`< 10`). -/
def decDigit : Nat → Char
  | 0 => '0'
  | 1 => '1'
  | 2 => '2'
  | 3 => '3'
  | 4 => '4'
  | 5 => '5'
  | 6 => '6'
  | 7 => '7'
  | 8 => '8'
  | _ => '9'

/-- Decimal rendering worker, structurally recursive on a fuel bound so
that it reduces inside the kernel; any fuel above the argument gives the
digits of `n`, most significant first. -/
def natToDecAux : Nat → Nat → Str
  | 0, _ => []
  | fuel + 1, n =>
    if n < 10 then [decDigit n]
    else natToDecAux fuel (n / 10) ++ [decDigit (n % 10)]

/-- Python `str(counter)` / `'{0}'.format(counter)` for the non-negative
loop counter of `make_new_fn_unique` (lines 109-117): standard decimal
rendering. -/
def natToDec (n : Nat) : Str := natToDecAux (n + 1) n

/-- Split a string into its maximal leading run of decimal digits and the
remainder; this is how the regex engine consumes an anchored `\d+`
followed by a non-digit literal (no backtracking is possible, because
shrinking the run leaves a digit facing a non-digit literal). -/
def takeDigits : Str → Str × Str
  | [] => ([], [])
  | c :: cs =>
    if c.isDigit then
      let p := takeDigits cs
      (c :: p.1, p.2)
    else ([], c :: cs)

/-- Python `re.sub(r'^(\d+_\d+)-\d+\.jpg', r'\1-{0}.jpg'.format(counter), s)`
(lines 113-114).  The pattern is anchored at the start and not at the
end, so a match consumes `digits`, `'_'`, `digits`, `'-'`, `digits`,
`".jpg"` and leaves any tail untouched; the replacement keeps group 1 and
substitutes the current counter. -/
def subTs1 (counter : Nat) (s : Str) : Str :=
  match takeDigits s with
  | ([], _) => s
  | (d1, r1) =>
    match r1 with
    | '_' :: r2 =>
      match takeDigits r2 with
      | ([], _) => s
      | (d2, r3) =>
        match r3 with
        | '-' :: r4 =>
          match takeDigits r4 with
          | ([], _) => s
          | (_, r5) =>
            match r5 with
            | '.' :: 'j' :: 'p' :: 'g' :: rest =>
              d1 ++ '_' :: (d2 ++ '-' :: (natToDec counter ++ '.' :: 'j' :: 'p' :: 'g' :: rest))
            | _ => s
        | _ => s
    | _ => s

/-- Python `re.sub(r'^(\d+_\d+)\.jpg', r'\1-{0}.jpg'.format(counter), s)`
(lines 115-116): like `subTs1` but without the existing `-digits`
component. -/
def subTs2 (counter : Nat) (s : Str) : Str :=
  match takeDigits s with
  | ([], _) => s
  | (d1, r1) =>
    match r1 with
    | '_' :: r2 =>
      match takeDigits r2 with
      | ([], _) => s
      | (d2, r3) =>
        match r3 with
        | '.' :: 'j' :: 'p' :: 'g' :: rest =>
          d1 ++ '_' :: (d2 ++ '-' :: (natToDec counter ++ '.' :: 'j' :: 'p' :: 'g' :: rest))
        | _ => s
    | _ => s

/-- The `while` loop of `make_new_fn_unique` (lines 109-117), with the
filesystem probe `os.path.exists(os.path.join(workdir, new_fn))`
abstracted into the predicate `ex`, and an explicit fuel bound because
the Python loop has no termination guarantee: `none` means the loop has
not exited within `fuel` iterations. -/
def makeUniqueGo (ex : Str → Bool) (old_fn : Str) : Nat → Str → Nat → Option Str
  | 0, _, _ => none
  | fuel + 1, new_fn, counter =>
    if ex new_fn then
      if old_fn = new_fn then some new_fn
      else makeUniqueGo ex old_fn fuel (subTs2 counter (subTs1 counter new_fn)) (counter + 1)
    else some new_fn

/-- Function `make_new_fn_unique` (lines 100-118): probe the candidate against the
directory contents, rewriting in a numeric suffix while it collides,
starting the counter at 1. -/
def make_new_fn_unique (ex : Str → Bool) (old_fn new_fn : Str) (fuel : Nat) : Option Str :=
  makeUniqueGo ex old_fn fuel new_fn 1

/-- Termination of the `make_new_fn_unique` loop on a given input: some
fuel bound suffices for the loop to exit. -/
def makeUniqueTerminates (ex : Str → Bool) (old_fn new_fn : Str) : Prop :=
  ∃ fuel, (make_new_fn_unique ex old_fn new_fn fuel).isSome

/-- Python `os.path.join` (lines 110, 132, 168-169) for the cases the
program exercises: an absolute second component wins; otherwise the parts
are joined with a single `'/'`. -/
def pathJoin (a b : Str) : Str :=
  if b.head? = some '/' then b
  else if a = [] then b
  else if a.getLast? = some '/' then a ++ b
  else a ++ '/' :: b

/-- Python `os.path.basename` (line 89): the part after the last `'/'`. -/
def basename (p : Str) : Str := (p.reverse.takeWhile (fun c => c ≠ '/')).reverse

/-- The `EXTENSIONS` constant (line 15). -/
def EXTENSIONS : List Str := ["JPG".data, "jpg".data, "jpeg".data]

/-- Whether `glob.glob('*.{ext}')` lists the file `fn` (lines 131-133):
the name must end in `'.' + ext` (case-sensitively) and, because a glob
`*` never matches a leading dot, must not itself start with `'.'`. -/
def globMatches (ext : Str) (fn : Str) : Bool :=
  ('.' :: ext).isSuffixOf fn && fn.head? ≠ some '.'

/-- The files scanned by `init_file_map` (lines 131-134), in the order the
three extension globs produce them from the directory listing. -/
def globFiles (listing : List Str) : List Str :=
  EXTENSIONS.flatMap (fun ext => listing.filter (globMatches ext))

/-- A planning failure: `typeError` when `get_new_fn` raises (truthy
non-string EXIF value), `fuelOut` when a `make_new_fn_unique` loop does
not exit within the given fuel (the Python loop would still be running). -/
inductive RunErr where
  | typeError
  | fuelOut
deriving DecidableEq

/-- The per-file body of `init_file_map`'s loop (lines 134-140), iterated
over a list of filenames: derive a candidate name, make it unique against
the directory contents (`os.path.exists` is membership in the frozen
listing), and record the pair. -/
def planFiles (listing : List Str) (exifOf : Str → List (Str × ExifValue)) (fuel : Nat) :
    List Str → Except RunErr (List (Str × Str))
  | [] => .ok []
  | old_fn :: rest =>
    match get_new_fn old_fn (exifOf old_fn) with
    | .error _ => .error .typeError
    | .ok cand =>
      match make_new_fn_unique (fun n => decide (n ∈ listing)) old_fn cand fuel with
      | none => .error .fuelOut
      | some new_fn =>
        match planFiles listing exifOf fuel rest with
        | .error e => .error e
        | .ok tail => .ok ((old_fn, new_fn) :: tail)

/-- Function `init_file_map` (lines 121-142): build the old-name to new-name
mapping for every file matched by the extension globs.  The filesystem is
abstracted by the frozen directory `listing` and the per-file metadata
oracle `exifOf` (the black-box `read_exif_data`). -/
def init_file_map (listing : List Str) (exifOf : Str → List (Str × ExifValue)) (fuel : Nat) :
    Except RunErr (List (Str × Str)) :=
  planFiles listing exifOf fuel (globFiles listing)

/-- The observable behaviour of one move function invocation: lines it
prints, renames it performs on the filesystem, and whether it raises. -/
structure MoveBehavior where
  stdout : List Str
  renames : List (Str × Str)
  result : Except Str Unit
deriving DecidableEq

/-- The message printed by `move` (lines 88-89). -/
def reallyMovingLine (old_fn new_fn : Str) : Str :=
  "Really moving the files: ".data ++ basename old_fn ++ " ==> ".data ++ basename new_fn

/-- The default `move` function (lines 85-97): it prints the message and
then executes the bare `return` on line 92, so the `os.rename` call below
it is unreachable — no rename is performed and no exception escapes. -/
def move (old_fn new_fn : Str) : MoveBehavior :=
  { stdout := [reallyMovingLine old_fn new_fn], renames := [], result := .ok () }

/-- The trace of an executor run: the arguments of each `move_func`
invocation, in order, and the lines printed to standard error. -/
structure ExecTrace where
  calls : List (Str × Str)
  stderrLines : List Str
deriving DecidableEq

/-- Function `process_file_map` (lines 145-172): walk the mapping; when `clobber`
and a move function are both present, invoke the move function with the
two joined paths, and on an exception print its message to stderr and
`break` out of the loop.  The result is the trace of calls and stderr
lines. -/
def process_file_map (workdir : Str) (file_map : List (Str × Str)) (clobber : Bool)
    (move_func : Option (Str → Str → MoveBehavior)) : ExecTrace :=
  match file_map with
  | [] => { calls := [], stderrLines := [] }
  | (old_fn, new_fn) :: rest =>
    if clobber then
      match move_func with
      | some f =>
        let src := pathJoin workdir old_fn
        let dst := pathJoin workdir new_fn
        match (f src dst).result with
        | .ok _ =>
          let t := process_file_map workdir rest clobber move_func
          { calls := (src, dst) :: t.calls, stderrLines := t.stderrLines }
        | .error e => { calls := [(src, dst)], stderrLines := [e] }
      | none => process_file_map workdir rest clobber move_func
    else process_file_map workdir rest clobber move_func

/-- Whether every character of a string is a decimal digit (used to state
which candidate shapes the suffix-rewrite patterns recognise). -/
def allDigits (s : Str) : Bool := s.all Char.isDigit

/-- The candidate shapes recognised by the two suffix-rewrite patterns of
`make_new_fn_unique`: `digits_digits.jpg` or `digits_digits-digits.jpg`
(each digit run non-empty, nothing after the extension). -/
def TsShaped (s : Str) : Prop :=
  ∃ d1 d2, d1 ≠ [] ∧ d2 ≠ [] ∧ allDigits d1 = true ∧ allDigits d2 = true ∧
    (s = d1 ++ '_' :: (d2 ++ dotJpg) ∨
     ∃ d3, d3 ≠ [] ∧ allDigits d3 = true ∧ s = d1 ++ '_' :: (d2 ++ '-' :: (d3 ++ dotJpg)))

example : get_new_fn "abc123.jpg".data
    [(dateTimeOriginal, .str "2014:08:16 06:20:30".data)]
    = .ok "20140816_062030.jpg".data := by decide

example : get_new_fn "AXJPEG".data [] = .ok "a.jpg".data := by decide

example : get_new_fn "abc.jpg".data [(dateTimeOriginal, .str [])]
    = .ok ".jpg".data := by decide

example : get_new_fn "a.jpg".data [(dateTimeOriginal, .num 5)]
    = .error .typeError := by decide

example : get_new_fn "abc.jpg".data
    [(dateTimeOriginal, .str "2014-08-16 06:20:30".data)]
    = .ok "abc.jpg".data := by decide

example : subTs2 1 "20140816_062030.jpg".data = "20140816_062030-1.jpg".data := by decide

example : subTs1 2 "20140816_062030-1.jpg".data = "20140816_062030-2.jpg".data := by decide

example : subTs1 3 "img0332.jpg".data = "img0332.jpg".data := by decide

example : subTs2 3 "img0332.jpg".data = "img0332.jpg".data := by decide

example :
    make_new_fn_unique (fun n => decide (n = "20140816_062030.jpg".data))
      "a.jpg".data "20140816_062030.jpg".data 3
      = some "20140816_062030-1.jpg".data := by decide

example :
    init_file_map ["img1.jpg".data, "img2.jpg".data]
      (fun _ => [(dateTimeOriginal, .str "2014:08:16 06:20:30".data)]) 5
      = .ok [("img1.jpg".data, "20140816_062030.jpg".data),
             ("img2.jpg".data, "20140816_062030.jpg".data)] := by decide

example :
    init_file_map ["IMG0332.JPG".data]
      (fun _ => [(dateTimeOriginal, .str "2014:08:18 20:23:45".data)]) 5
      = .ok [("IMG0332.JPG".data, "20140818_202345.jpg".data)] := by decide

example :
    process_file_map "/photos".data [("IMG0332.JPG".data, "20140818_202345.jpg".data)]
      true (some move)
      = { calls := [("/photos/IMG0332.JPG".data, "/photos/20140818_202345.jpg".data)],
          stderrLines := [] } := by decide

example :
    process_file_map "/photos".data [("IMG0332.JPG".data, "20140818_202345.jpg".data)]
      false (some move) = { calls := [], stderrLines := [] } := by decide

lemma sanitize_append (a b : Str) :
    spaceToUnderscore (removeColons (a ++ b))
      = spaceToUnderscore (removeColons a) ++ spaceToUnderscore (removeColons b) := by
  simp [removeColons, spaceToUnderscore, List.filter_append, List.map_append]

lemma matchTsCore_not_isEmpty {ts : Str} (h : matchTsCore ts = true) : ts.isEmpty = false := by
  cases ts with
  | nil => exact absurd h (by decide)
  | cons a l => rfl

/-- Claim C2: for every original filename and every metadata mapping whose
capture-timestamp field holds a string strictly matching
`YYYY:MM:DD HH:MM:SS`, the derived name is the timestamp with every colon
removed and the space replaced by an underscore, with `.jpg` appended; the
original filename is discarded entirely. -/
theorem c2_timestamp_derivation (old_fn ts : Str) (m : List (Str × ExifValue))
    (hl : exifLookup dateTimeOriginal m = some (.str ts))
    (hts : matchTsCore ts = true) :
    get_new_fn old_fn m = .ok (spaceToUnderscore (removeColons ts) ++ dotJpg) := by
  have hne : ts.isEmpty = false := matchTsCore_not_isEmpty hts
  have hfull : reFullMatchTs ts = true := by simp [reFullMatchTs, hts]
  have hsan : spaceToUnderscore (removeColons dotJpg) = dotJpg := by decide
  simp [get_new_fn, hl, validateTs, truthy, hne, hfull, pyFormat, sanitize_append, hsan]

/-- Claim C2 witness: the documented example input evaluates as the claim
states. -/
theorem c2_witness :
    get_new_fn "abc123.jpg".data
        [(dateTimeOriginal, .str "2014:08:16 06:20:30".data)]
      = .ok (spaceToUnderscore (removeColons "2014:08:16 06:20:30".data) ++ dotJpg) :=
  c2_timestamp_derivation "abc123.jpg".data "2014:08:16 06:20:30".data
    [(dateTimeOriginal, .str "2014:08:16 06:20:30".data)] (by rfl) (by decide)

/-- Claim C3 counterexample: the empty timestamp string deviates from the
pattern, yet derivation does not take the fallback branch: being falsy it
skips the validation test, survives to the timestamp branch, and yields
`.jpg` instead of the fallback result `abc.jpg`. -/
theorem c3_counterexample :
    get_new_fn "abc.jpg".data [(dateTimeOriginal, .str [])] = .ok ".jpg".data
    ∧ get_new_fn "abc.jpg".data [] = .ok "abc.jpg".data
    ∧ ".jpg".data ≠ "abc.jpg".data := by
  refine ⟨by decide, by decide, by decide⟩

/-- Claim C3 (amended): for every original filename and every
capture-timestamp string that is non-empty and matches neither the
pattern `4 digits : 2 digits : 2 digits SPACE 2 digits : 2 digits : 2
digits` nor that pattern followed by a single trailing newline (which
Python's `$` anchor also accepts), derivation takes the no-timestamp
fallback branch, i.e. behaves exactly as with empty metadata.  The empty
string is excluded: being falsy it skips validation and produces `.jpg`. -/
theorem c3_amended_malformed_fallback (old_fn ts : Str) (m : List (Str × ExifValue))
    (hl : exifLookup dateTimeOriginal m = some (.str ts))
    (hne : ts ≠ [])
    (hbad : reFullMatchTs ts = false) :
    get_new_fn old_fn m = get_new_fn old_fn [] := by
  have hie : ts.isEmpty = false := by cases ts with
    | nil => exact absurd rfl hne
    | cons a l => rfl
  simp [get_new_fn, hl, validateTs, truthy, hie, hbad, exifLookup]

/-- Claim C3 witness: a timestamp with dashes instead of colons falls back
to the no-timestamp derivation. -/
theorem c3_witness :
    get_new_fn "abc.jpg".data [(dateTimeOriginal, .str "2014-08-16 06:20:30".data)]
      = get_new_fn "abc.jpg".data [] :=
  c3_amended_malformed_fallback "abc.jpg".data "2014-08-16 06:20:30".data
    [(dateTimeOriginal, .str "2014-08-16 06:20:30".data)] (by rfl) (by decide) (by decide)

lemma rewriteDotJpeg_match (t : Str) (c : Char) (hc : c ≠ '\n') :
    rewriteDotJpeg (t ++ c :: jpegChars) = t ++ dotJpg := by
  unfold rewriteDotJpeg
  have hrev : (t ++ c :: jpegChars).reverse = 'g' :: 'e' :: 'p' :: 'j' :: c :: t.reverse := by
    simp [jpegChars]
  rw [hrev]
  simp only [rewriteDotJpegRev]
  rw [if_neg hc]
  simp [dotJpg]

lemma rewriteDotJpeg_nomatch (s : Str)
    (h1 : ¬ jpegChars <:+ s) (h2 : ¬ (jpegChars ++ ['\n']) <:+ s) :
    rewriteDotJpeg s = s := by
  unfold rewriteDotJpeg
  suffices h : rewriteDotJpegRev s.reverse = s.reverse by rw [h, List.reverse_reverse]
  have hs : s = s.reverse.reverse := (List.reverse_reverse s).symm
  unfold rewriteDotJpegRev
  split
  case _ c t heq =>
    by_cases hcn : c = '\n'
    · rw [if_pos hcn]
      exact heq.symm
    · exact absurd ⟨t.reverse ++ [c], by rw [hs, heq]; simp [jpegChars]⟩ h1
  case _ c t heq =>
    by_cases hcn : c = '\n'
    · rw [if_pos hcn]
      exact heq.symm
    · exact absurd ⟨t.reverse ++ [c], by rw [hs, heq]; simp [jpegChars]⟩ h2
  case _ => rfl

/-- Claim C4 counterexample: the fallback rewrite pattern `r'.jpeg$'` has
an unescaped dot, so a name merely ending in the five characters `xjpeg`
does not pass through unchanged: `AXJPEG` is lowercased to `axjpeg` and
then rewritten to `a.jpg`, not left as `axjpeg` as the claim requires. -/
theorem c4_counterexample :
    get_new_fn "AXJPEG".data [] = .ok "a.jpg".data
    ∧ "a.jpg".data ≠ "axjpeg".data := by
  refine ⟨by decide, by decide⟩

/-- Claim C4 (amended): with no (valid) capture timestamp the derived name
is the lowercased original with a trailing run of any character other
than a newline followed by the four characters `jpeg` rewritten to
`.jpg` (the regex dot in `r'.jpeg$'` matches any such character, not just
a literal dot), then colon/space sanitisation; a lowercased name with no
`jpeg`-like tail passes through with casing and sanitisation only. -/
theorem c4_amended_suffix_rewrite (f : Str) (m : List (Str × ExifValue))
    (hm : exifLookup dateTimeOriginal m = none) :
    (∀ t c, c ≠ '\n' → lowerList f = t ++ c :: jpegChars →
        get_new_fn f m = .ok (spaceToUnderscore (removeColons (t ++ dotJpg))))
    ∧ ((¬ jpegChars <:+ lowerList f) → (¬ (jpegChars ++ ['\n']) <:+ lowerList f) →
        get_new_fn f m = .ok (spaceToUnderscore (removeColons (lowerList f)))) := by
  constructor
  · intro t c hc hdec
    simp [get_new_fn, hm, validateTs, hdec, rewriteDotJpeg_match t c hc]
  · intro h1 h2
    simp [get_new_fn, hm, validateTs, rewriteDotJpeg_nomatch (lowerList f) h1 h2]

/-- Claim C4 witness: the two conjuncts of the amended claim evaluated at
concrete inputs: `Photo.JPEG` is rewritten to `photo.jpg`, while
`photo.png` passes through unchanged. -/
theorem c4_witness :
    get_new_fn "Photo.JPEG".data [] =
      .ok (spaceToUnderscore (removeColons ("photo".data ++ dotJpg)))
    ∧ get_new_fn "photo.png".data [] =
      .ok (spaceToUnderscore (removeColons (lowerList "photo.png".data))) := by
  constructor
  · exact (c4_amended_suffix_rewrite "Photo.JPEG".data [] (by rfl)).1
      "photo".data '.' (by decide) (by decide)
  · exact (c4_amended_suffix_rewrite "photo.png".data [] (by rfl)).2
      (by decide) (by decide)

/-- Claim C6 counterexample: a metadata mapping whose capture-timestamp
field holds the (truthy) non-string value 5 does not fall back; instead
the pattern match raises `TypeError`, so the Name Deriver fails on a
well-typed input. -/
theorem c6_counterexample :
    get_new_fn "a.jpg".data [(dateTimeOriginal, .num 5)] = .error .typeError := by
  decide

/-- Claim C6 (amended): the Name Deriver returns a string whenever the
capture-timestamp field is absent or holds a string value; a truthy
non-string value instead raises `TypeError` from the pattern match, and
only falsy non-string values (zero) flow through to the format step. -/
theorem c6_amended_total_on_strings (f : Str) (m : List (Str × ExifValue))
    (h : exifLookup dateTimeOriginal m = none
        ∨ ∃ s, exifLookup dateTimeOriginal m = some (.str s)) :
    ∃ r, get_new_fn f m = .ok r := by
  rcases h with h | ⟨s, h⟩
  · exact ⟨spaceToUnderscore (removeColons (rewriteDotJpeg (lowerList f))),
      by simp [get_new_fn, h, validateTs]⟩
  · by_cases ht : truthy (ExifValue.str s) = true
    · by_cases hm2 : reFullMatchTs s = true
      · exact ⟨spaceToUnderscore (removeColons (s ++ dotJpg)),
          by simp [get_new_fn, h, validateTs, ht, hm2, pyFormat]⟩
      · exact ⟨spaceToUnderscore (removeColons (rewriteDotJpeg (lowerList f))),
          by simp [get_new_fn, h, validateTs, ht, hm2]⟩
    · exact ⟨spaceToUnderscore (removeColons (s ++ dotJpg)),
        by simp [get_new_fn, h, validateTs, ht, pyFormat]⟩

/-- Claim C6 witness: with a string-valued timestamp field the deriver
returns a string. -/
theorem c6_witness :
    ∃ r, get_new_fn "a.jpg".data [(dateTimeOriginal, .str "hello".data)] = .ok r :=
  c6_amended_total_on_strings "a.jpg".data [(dateTimeOriginal, .str "hello".data)]
    (Or.inr ⟨"hello".data, by rfl⟩)

/-- Claim C5: in the end-to-end scenario (a directory containing only
`IMG0332.JPG`, timestamped `2014:08:18 20:23:45`, `clobber` true) the
planner produces the expected mapping, and the executor invokes the move
function exactly once with the two full paths — but the default `move`
function performs no rename at all: its body executes a bare `return`
(line 92) before the `os.rename` call, so the file is never really
moved, contradicting the claim. -/
theorem c5_move_stub_eval :
    init_file_map ["IMG0332.JPG".data]
        (fun _ => [(dateTimeOriginal, .str "2014:08:18 20:23:45".data)]) 5
      = .ok [("IMG0332.JPG".data, "20140818_202345.jpg".data)]
    ∧ (process_file_map "/photos".data
        [("IMG0332.JPG".data, "20140818_202345.jpg".data)] true (some move)).calls
      = [("/photos/IMG0332.JPG".data, "/photos/20140818_202345.jpg".data)]
    ∧ (move "/photos/IMG0332.JPG".data "/photos/20140818_202345.jpg".data).renames
      = [] := by
  refine ⟨by decide, by decide, by decide⟩

/-- Claim C8: for every existence predicate, `make_unique` returns the
candidate unchanged whenever it equals the original name — whether the
name exists or not, the loop either never starts or breaks out at once
via the self-equality test, so no numeric suffix is attached.  The
`make_unique(n, empty, n) = n` identity and the self-collision
short-circuit are both instances. -/
theorem c8_self_name_noop (ex : Str → Bool) (n : Str) (fuel : Nat) (h : 1 ≤ fuel) :
    make_new_fn_unique ex n n fuel = some n := by
  obtain ⟨k, rfl⟩ : ∃ k, fuel = k + 1 := ⟨fuel - 1, by omega⟩
  unfold make_new_fn_unique makeUniqueGo
  by_cases hex : ex n = true
  · simp [hex]
  · simp [hex]

/-- Claim C8 witness: a candidate equal to its own original name is
returned as-is even when the existence test claims every name exists. -/
theorem c8_witness :
    make_new_fn_unique (fun _ => true) "img0332.jpg".data "img0332.jpg".data 1
      = some "img0332.jpg".data :=
  c8_self_name_noop (fun _ => true) "img0332.jpg".data 1 (by decide)

/-- Claim C9: executing with `clobber` false performs no move invocation
at all, for every working directory, file mapping, and move function:
the dry run leaves the filesystem untouched. -/
theorem c9_dry_run_no_calls (workdir : Str) (file_map : List (Str × Str))
    (move_func : Option (Str → Str → MoveBehavior)) :
    process_file_map workdir file_map false move_func
      = { calls := [], stderrLines := [] } := by
  induction file_map with
  | nil => rfl
  | cons p rest ih =>
    obtain ⟨o, n⟩ := p
    simpa [process_file_map] using ih

/-- Claim C1 counterexample: two files whose metadata both carry the
capture timestamp `2014:08:16 06:20:30`, in a directory that does not
already contain `20140816_062030.jpg`, are both planned to the very same
name — candidates are only probed against `os.path.exists`, never against
the names claimed by earlier entries of the batch, so the mapping values
are not pairwise distinct and the second file does not receive the
claimed `-1` suffix. -/
theorem c1_counterexample :
    init_file_map ["img1.jpg".data, "img2.jpg".data]
        (fun _ => [(dateTimeOriginal, .str "2014:08:16 06:20:30".data)]) 5
      = .ok [("img1.jpg".data, "20140816_062030.jpg".data),
             ("img2.jpg".data, "20140816_062030.jpg".data)]
    ∧ ¬ List.Pairwise (fun a b : Str => a ≠ b)
        ["20140816_062030.jpg".data, "20140816_062030.jpg".data]
    ∧ "20140816_062030.jpg".data ≠ "20140816_062030-1.jpg".data := by
  refine ⟨by decide, by decide, by decide⟩

lemma makeUniqueGo_post (ex : Str → Bool) (old_fn : Str) :
    ∀ fuel new_fn counter r, makeUniqueGo ex old_fn fuel new_fn counter = some r →
      ex r = false ∨ r = old_fn := by
  intro fuel
  induction fuel with
  | zero =>
    intro n c r h
    simp [makeUniqueGo] at h
  | succ k ih =>
    intro n c r h
    unfold makeUniqueGo at h
    by_cases hex : ex n = true
    · rw [if_pos hex] at h
      by_cases heq : old_fn = n
      · rw [if_pos heq] at h
        right
        cases h
        exact heq.symm
      · rw [if_neg heq] at h
        exact ih _ _ _ h
    · rw [if_neg hex] at h
      left
      cases h
      simpa using hex

lemma planFiles_post (listing : List Str) (exifOf : Str → List (Str × ExifValue)) (fuel : Nat) :
    ∀ (l : List Str) (fm : List (Str × Str)), planFiles listing exifOf fuel l = .ok fm →
      ∀ p ∈ fm, decide (p.2 ∈ listing) = false ∨ p.2 = p.1 := by
  intro l
  induction l with
  | nil =>
    intro fm h p hp
    simp [planFiles] at h
    subst h
    simp at hp
  | cons a rest ih =>
    intro fm h p hp
    unfold planFiles at h
    split at h
    · exact absurd h (by simp)
    · split at h
      · exact absurd h (by simp)
      · split at h
        · exact absurd h (by simp)
        case _ new_fn hu _ tail htail =>
          cases h
          rcases List.mem_cons.mp hp with rfl | hmem
          · exact makeUniqueGo_post _ _ _ _ _ _ hu
          · exact ih tail htail p hmem

/-- Claim C1 (amended): by the time planning completes, each derived name
in the mapping is unique only with respect to the pre-existing directory
contents — it is either absent from the frozen directory listing or equal
to its own original name.  Candidates are never checked against the names
claimed by earlier entries of the same batch, so two files with identical
timestamps are both planned to the same derived name (no `-1` suffix for
the second). -/
theorem c1_amended_planned_names (listing : List Str)
    (exifOf : Str → List (Str × ExifValue)) (fuel : Nat) (fm : List (Str × Str))
    (hplan : init_file_map listing exifOf fuel = .ok fm) :
    ∀ p ∈ fm, decide (p.2 ∈ listing) = false ∨ p.2 = p.1 := by
  exact planFiles_post listing exifOf fuel (globFiles listing) fm hplan

/-- Claim C1 witness: the amended statement evaluated on the end-to-end
scenario directory. -/
theorem c1_amended_witness :
    decide (("20140818_202345.jpg".data : Str) ∈ (["IMG0332.JPG".data] : List Str)) = false
    ∨ ("20140818_202345.jpg".data : Str) = "IMG0332.JPG".data :=
  c1_amended_planned_names ["IMG0332.JPG".data]
    (fun _ => [(dateTimeOriginal, .str "2014:08:18 20:23:45".data)]) 5
    [("IMG0332.JPG".data, "20140818_202345.jpg".data)] (by decide)
    ("IMG0332.JPG".data, "20140818_202345.jpg".data) (by decide)

/-- Claim C10: when `clobber` is true and the move function raises on some
mapping entry, after any prefix of entries whose moves succeed, the
executor's trace is exactly the successful calls followed by the single
failing call, the error message is reported to stderr, and nothing after
the failing entry is attempted (entries in `post` produce no calls); the
failing move appears once, so it is not retried. -/
theorem c10_fail_fast (workdir : Str) (f : Str → Str → MoveBehavior)
    (pre post : List (Str × Str)) (o n : Str) (e : Str)
    (hpre : ∀ p ∈ pre, (f (pathJoin workdir p.1) (pathJoin workdir p.2)).result = .ok ())
    (hfail : (f (pathJoin workdir o) (pathJoin workdir n)).result = .error e) :
    process_file_map workdir (pre ++ (o, n) :: post) true (some f)
      = { calls := pre.map (fun p => (pathJoin workdir p.1, pathJoin workdir p.2))
            ++ [(pathJoin workdir o, pathJoin workdir n)],
          stderrLines := [e] } := by
  induction pre with
  | nil =>
    simp only [List.nil_append, List.map_nil]
    unfold process_file_map
    simp [hfail]
  | cons p ps ih =>
    obtain ⟨po, pn⟩ := p
    have hp := hpre (po, pn) (by simp)
    have ihx := ih (fun q hq => hpre q (by simp [hq]))
    simp only [List.cons_append]
    unfold process_file_map
    simp only [if_true]
    rw [hp]
    simp [ihx]

/-- Claim C10 witness: with a concrete move function that fails on the
second entry of three, the trace is the successful first call followed by
the failing call, the error on stderr, and no third call. -/
theorem c10_witness :
    process_file_map "/d".data
        ([("a.jpg".data, "a1.jpg".data)]
          ++ ("bad.jpg".data, "b1.jpg".data) :: [("c.jpg".data, "c1.jpg".data)]) true
        (some (fun src _ => if src = "/d/bad.jpg".data
          then { stdout := [], renames := [], result := .error "boom".data }
          else { stdout := [], renames := [], result := .ok () }))
      = { calls := [("a.jpg".data, "a1.jpg".data)].map
            (fun p => (pathJoin "/d".data p.1, pathJoin "/d".data p.2))
            ++ [(pathJoin "/d".data "bad.jpg".data, pathJoin "/d".data "b1.jpg".data)],
          stderrLines := ["boom".data] } :=
  c10_fail_fast "/d".data
    (fun src _ => if src = "/d/bad.jpg".data
      then { stdout := [], renames := [], result := .error "boom".data }
      else { stdout := [], renames := [], result := .ok () })
    [("a.jpg".data, "a1.jpg".data)] [("c.jpg".data, "c1.jpg".data)]
    "bad.jpg".data "b1.jpg".data "boom".data
    (by decide) (by decide)

/-- Claim C7 counterexample: termination is not guaranteed by
construction.  With candidate `img0332.jpg` (which matches neither
suffix-rewrite pattern), an original name differing from it, and an
existence test that reports the candidate present, the loop body leaves
the probed string unchanged forever: no fuel bound makes the loop exit,
i.e. the Python `while` loop runs indefinitely. -/
theorem c7_counterexample :
    ¬ makeUniqueTerminates (fun x => decide (x = "img0332.jpg".data))
        "IMG0332.JPG".data "img0332.jpg".data := by
  have key : ∀ fuel counter,
      makeUniqueGo (fun x => decide (x = "img0332.jpg".data)) "IMG0332.JPG".data fuel
        "img0332.jpg".data counter = none := by
    intro fuel
    induction fuel with
    | zero => intro c; rfl
    | succ k ih =>
      intro c
      have hstep : subTs2 c (subTs1 c "img0332.jpg".data) = "img0332.jpg".data := rfl
      unfold makeUniqueGo
      rw [if_pos (by decide), if_neg (by decide), hstep]
      exact ih (c + 1)
  rintro ⟨fuel, hsome⟩
  rw [make_new_fn_unique, key fuel 1] at hsome
  simp at hsome

lemma natToDecAux_irrel : ∀ f1 f2 n, n < f1 → n < f2 → natToDecAux f1 n = natToDecAux f2 n := by
  intro f1
  induction f1 with
  | zero => intro f2 n h1 h2; omega
  | succ k ih =>
    intro f2 n h1 h2
    cases f2 with
    | zero => omega
    | succ k2 =>
      unfold natToDecAux
      by_cases h10 : n < 10
      · simp [h10]
      · simp only [if_neg h10]
        rw [ih k2 (n / 10) (by omega) (by omega)]

lemma natToDec_eq (n : Nat) :
    natToDec n = if n < 10 then [decDigit n]
      else natToDec (n / 10) ++ [decDigit (n % 10)] := by
  show natToDecAux (n + 1) n = _
  rw [natToDecAux]
  by_cases h : n < 10
  · simp [h]
  · simp only [if_neg h]
    show natToDecAux n (n / 10) ++ _ = natToDecAux (n / 10 + 1) (n / 10) ++ _
    rw [natToDecAux_irrel n (n / 10 + 1) (n / 10) (by omega) (by omega)]

lemma decDigit_isDigit (n : Nat) : (decDigit n).isDigit = true := by
  unfold decDigit
  split <;> decide

lemma decDigit_inj (a b : Nat) (ha : a < 10) (hb : b < 10)
    (h : decDigit a = decDigit b) : a = b := by
  interval_cases a <;> interval_cases b <;> first | rfl | exact absurd h (by decide)

lemma natToDec_ne_nil (n : Nat) : natToDec n ≠ [] := by
  rw [natToDec_eq]
  by_cases h : n < 10
  · simp [h]
  · simp [h]

lemma natToDec_allDigits (n : Nat) : allDigits (natToDec n) = true := by
  induction n using Nat.strong_induction_on with
  | _ n ih =>
    rw [natToDec_eq]
    by_cases h : n < 10
    · simp [h, allDigits, decDigit_isDigit]
    · simp only [if_neg h]
      have hx := ih (n / 10) (by omega)
      simp only [allDigits, List.all_append, List.all_cons, List.all_nil] at hx ⊢
      simp [hx, decDigit_isDigit]

lemma natToDec_inj : ∀ m n, natToDec m = natToDec n → m = n := by
  intro m
  induction m using Nat.strong_induction_on with
  | _ m ih =>
    intro n h
    rw [natToDec_eq m, natToDec_eq n] at h
    by_cases hm : m < 10 <;> by_cases hn : n < 10
    · simp only [if_pos hm, if_pos hn] at h
      exact decDigit_inj m n hm hn (by simpa using h)
    · exfalso
      simp only [if_pos hm, if_neg hn] at h
      have hl := congrArg List.length h
      have hne := natToDec_ne_nil (n / 10)
      simp [List.length_append] at hl
      cases hx : natToDec (n / 10) with
      | nil => exact hne hx
      | cons a l => rw [hx] at hl; simp at hl
    · exfalso
      simp only [if_neg hm, if_pos hn] at h
      have hl := congrArg List.length h
      have hne := natToDec_ne_nil (m / 10)
      simp [List.length_append] at hl
      cases hx : natToDec (m / 10) with
      | nil => exact hne hx
      | cons a l => rw [hx] at hl; simp at hl
    · simp only [if_neg hm, if_neg hn] at h
      obtain ⟨h3, h4⟩ := List.append_inj' h (by simp)
      have e1 : m / 10 = n / 10 := ih (m / 10) (by omega) (n / 10) h3
      have e2 : m % 10 = n % 10 :=
        decDigit_inj _ _ (by omega) (by omega) (by simpa using h4)
      omega

lemma takeDigits_append (d : Str) (c : Char) (t : Str)
    (hd : allDigits d = true) (hc : c.isDigit = false) :
    takeDigits (d ++ c :: t) = (d, c :: t) := by
  induction d with
  | nil => simp [takeDigits, hc]
  | cons a d ih =>
    simp only [allDigits, List.all_cons, Bool.and_eq_true] at hd
    have ha : a.isDigit = true := hd.1
    have hd' : allDigits d = true := hd.2
    simp [takeDigits, ha, ih hd']

lemma subTs1_noSuffix (k : Nat) (d1 d2 : Str) (h1 : d1 ≠ []) (h2 : d2 ≠ [])
    (a1 : allDigits d1 = true) (a2 : allDigits d2 = true) :
    subTs1 k (d1 ++ '_' :: (d2 ++ dotJpg)) = d1 ++ '_' :: (d2 ++ dotJpg) := by
  obtain ⟨a, d1', rfl⟩ : ∃ a d1', d1 = a :: d1' := by
    cases d1 with
    | nil => exact absurd rfl h1
    | cons x xs => exact ⟨x, xs, rfl⟩
  obtain ⟨b, d2', rfl⟩ : ∃ b d2', d2 = b :: d2' := by
    cases d2 with
    | nil => exact absurd rfl h2
    | cons x xs => exact ⟨x, xs, rfl⟩
  unfold subTs1
  simp only [dotJpg]
  rw [takeDigits_append (a :: d1') '_' ((b :: d2') ++ '.' :: 'j' :: 'p' :: 'g' :: []) a1
    (by decide)]
  simp only []
  rw [takeDigits_append (b :: d2') '.' ('j' :: 'p' :: 'g' :: []) a2 (by decide)]
  rfl

lemma subTs2_noSuffix (k : Nat) (d1 d2 : Str) (h1 : d1 ≠ []) (h2 : d2 ≠ [])
    (a1 : allDigits d1 = true) (a2 : allDigits d2 = true) :
    subTs2 k (d1 ++ '_' :: (d2 ++ dotJpg))
      = d1 ++ '_' :: (d2 ++ '-' :: (natToDec k ++ dotJpg)) := by
  obtain ⟨a, d1', rfl⟩ : ∃ a d1', d1 = a :: d1' := by
    cases d1 with
    | nil => exact absurd rfl h1
    | cons x xs => exact ⟨x, xs, rfl⟩
  obtain ⟨b, d2', rfl⟩ : ∃ b d2', d2 = b :: d2' := by
    cases d2 with
    | nil => exact absurd rfl h2
    | cons x xs => exact ⟨x, xs, rfl⟩
  unfold subTs2
  simp only [dotJpg]
  rw [takeDigits_append (a :: d1') '_' ((b :: d2') ++ '.' :: 'j' :: 'p' :: 'g' :: []) a1
    (by decide)]
  simp only []
  rw [takeDigits_append (b :: d2') '.' ('j' :: 'p' :: 'g' :: []) a2 (by decide)]
  rfl

lemma subTs1_suffix (k : Nat) (d1 d2 d3 : Str) (h1 : d1 ≠ []) (h2 : d2 ≠ []) (h3 : d3 ≠ [])
    (a1 : allDigits d1 = true) (a2 : allDigits d2 = true) (a3 : allDigits d3 = true) :
    subTs1 k (d1 ++ '_' :: (d2 ++ '-' :: (d3 ++ dotJpg)))
      = d1 ++ '_' :: (d2 ++ '-' :: (natToDec k ++ dotJpg)) := by
  obtain ⟨a, d1', rfl⟩ : ∃ a d1', d1 = a :: d1' := by
    cases d1 with
    | nil => exact absurd rfl h1
    | cons x xs => exact ⟨x, xs, rfl⟩
  obtain ⟨b, d2', rfl⟩ : ∃ b d2', d2 = b :: d2' := by
    cases d2 with
    | nil => exact absurd rfl h2
    | cons x xs => exact ⟨x, xs, rfl⟩
  obtain ⟨c, d3', rfl⟩ : ∃ c d3', d3 = c :: d3' := by
    cases d3 with
    | nil => exact absurd rfl h3
    | cons x xs => exact ⟨x, xs, rfl⟩
  unfold subTs1
  simp only [dotJpg]
  rw [takeDigits_append (a :: d1') '_'
    ((b :: d2') ++ '-' :: ((c :: d3') ++ '.' :: 'j' :: 'p' :: 'g' :: [])) a1 (by decide)]
  simp only []
  rw [takeDigits_append (b :: d2') '-' ((c :: d3') ++ '.' :: 'j' :: 'p' :: 'g' :: []) a2
    (by decide)]
  simp only []
  rw [takeDigits_append (c :: d3') '.' ('j' :: 'p' :: 'g' :: []) a3 (by decide)]
  rfl

lemma subTs2_suffix (k : Nat) (d1 d2 d3 : Str) (h1 : d1 ≠ []) (h2 : d2 ≠ [])
    (a1 : allDigits d1 = true) (a2 : allDigits d2 = true) :
    subTs2 k (d1 ++ '_' :: (d2 ++ '-' :: (d3 ++ dotJpg)))
      = d1 ++ '_' :: (d2 ++ '-' :: (d3 ++ dotJpg)) := by
  obtain ⟨a, d1', rfl⟩ : ∃ a d1', d1 = a :: d1' := by
    cases d1 with
    | nil => exact absurd rfl h1
    | cons x xs => exact ⟨x, xs, rfl⟩
  obtain ⟨b, d2', rfl⟩ : ∃ b d2', d2 = b :: d2' := by
    cases d2 with
    | nil => exact absurd rfl h2
    | cons x xs => exact ⟨x, xs, rfl⟩
  unfold subTs2
  simp only [dotJpg]
  rw [takeDigits_append (a :: d1') '_'
    ((b :: d2') ++ '-' :: (d3 ++ '.' :: 'j' :: 'p' :: 'g' :: [])) a1 (by decide)]
  simp only []
  rw [takeDigits_append (b :: d2') '-' (d3 ++ '.' :: 'j' :: 'p' :: 'g' :: []) a2 (by decide)]
  rfl

lemma makeUniqueGo_succ (ex : Str → Bool) (old_fn : Str) (k : Nat) (nm : Str) (c : Nat) :
    makeUniqueGo ex old_fn (k + 1) nm c
      = if ex nm then
          (if old_fn = nm then some nm
           else makeUniqueGo ex old_fn k (subTs2 c (subTs1 c nm)) (c + 1))
        else some nm := rfl

lemma exists_free_probe (S : List Str) (d1 d2 : Str) :
    ∃ i, 1 ≤ i ∧ i < S.length + 2 ∧
      (d1 ++ '_' :: (d2 ++ '-' :: (natToDec i ++ dotJpg))) ∉ S := by
  by_contra hall
  push_neg at hall
  have hmap : ∀ a ∈ Finset.range (S.length + 1),
      (d1 ++ '_' :: (d2 ++ '-' :: (natToDec (a + 1) ++ dotJpg))) ∈ S.toFinset := by
    intro a ha
    rw [List.mem_toFinset]
    rw [Finset.mem_range] at ha
    exact hall (a + 1) (by omega) (by omega)
  have hinj : Set.InjOn (fun i : Nat => d1 ++ '_' :: (d2 ++ '-' :: (natToDec (i + 1) ++ dotJpg)))
      (Finset.range (S.length + 1)) := by
    intro x _ y _ hxy
    simp only at hxy
    have e1 := List.append_cancel_left hxy
    injection e1 with _ e2
    have e3 := List.append_cancel_left e2
    injection e3 with _ e4
    have e5 := List.append_cancel_right e4
    have := natToDec_inj _ _ e5
    omega
  have hcard := Finset.card_le_card_of_injOn _ hmap hinj
  rw [Finset.card_range] at hcard
  have hle := S.toFinset_card_le
  omega

lemma makeUniqueGo_reaches (ex : Str → Bool) (old_fn : Str) (d1 d2 : Str)
    (h1 : d1 ≠ []) (h2 : d2 ≠ []) (a1 : allDigits d1 = true) (a2 : allDigits d2 = true) :
    ∀ m j, 1 ≤ j →
      (∃ i, j ≤ i ∧ i < j + m ∧
        (ex (d1 ++ '_' :: (d2 ++ '-' :: (natToDec i ++ dotJpg))) = false
          ∨ old_fn = d1 ++ '_' :: (d2 ++ '-' :: (natToDec i ++ dotJpg)))) →
      (makeUniqueGo ex old_fn m (d1 ++ '_' :: (d2 ++ '-' :: (natToDec j ++ dotJpg)))
        (j + 1)).isSome = true := by
  intro m
  induction m with
  | zero =>
    intro j hj hgood
    obtain ⟨i, hij, hilt, _⟩ := hgood
    omega
  | succ mm ih =>
    intro j hj hgood
    obtain ⟨i, hij, hilt, hgd⟩ := hgood
    rw [makeUniqueGo_succ]
    by_cases hex : ex (d1 ++ '_' :: (d2 ++ '-' :: (natToDec j ++ dotJpg))) = true
    · rw [if_pos hex]
      by_cases heq : old_fn = d1 ++ '_' :: (d2 ++ '-' :: (natToDec j ++ dotJpg))
      · rw [if_pos heq]
        rfl
      · rw [if_neg heq]
        have hstep : subTs2 (j + 1)
            (subTs1 (j + 1) (d1 ++ '_' :: (d2 ++ '-' :: (natToDec j ++ dotJpg))))
            = d1 ++ '_' :: (d2 ++ '-' :: (natToDec (j + 1) ++ dotJpg)) := by
          rw [subTs1_suffix (j + 1) d1 d2 (natToDec j) h1 h2 (natToDec_ne_nil j)
                a1 a2 (natToDec_allDigits j),
              subTs2_suffix (j + 1) d1 d2 (natToDec (j + 1)) h1 h2 a1 a2]
        rw [hstep]
        apply ih (j + 1) (by omega)
        refine ⟨i, ?_, by omega, hgd⟩
        rcases Nat.eq_or_lt_of_le hij with heqi | hlt
        · exfalso
          rcases hgd with hg | hg
          · rw [← heqi] at hg
            rw [hg] at hex
            exact absurd hex (by simp)
          · rw [← heqi] at hg
            exact heq hg
        · omega
    · rw [if_neg hex]
      rfl

/-- Claim C7 (amended): the `make_unique` loop terminates whenever the
candidate is not in the (finite) existing-name set, or equals the
original name, or matches one of the two suffix-rewrite patterns
(`digits_digits.jpg` or `digits_digits-digits.jpg` — the shapes every
timestamp-derived candidate has); in the last case each iteration
produces a fresh `-counter` probe, which leaves the finite set within
its cardinality plus one steps.  Termination does not hold for arbitrary
candidates: a colliding candidate matching neither pattern loops
forever. -/
theorem c7_amended_termination (S : List Str) (old_fn n0 : Str)
    (h : decide (n0 ∈ S) = false ∨ n0 = old_fn ∨ TsShaped n0) :
    makeUniqueTerminates (fun x => decide (x ∈ S)) old_fn n0 := by
  rcases h with h | h | h
  · refine ⟨1, ?_⟩
    unfold make_new_fn_unique
    rw [makeUniqueGo_succ, if_neg (by simp [h])]
    rfl
  · refine ⟨1, ?_⟩
    unfold make_new_fn_unique
    rw [makeUniqueGo_succ]
    by_cases hex : decide (n0 ∈ S) = true
    · rw [if_pos hex, if_pos h.symm]
      rfl
    · rw [if_neg hex]
      rfl
  · obtain ⟨d1, d2, h1, h2, a1, a2, hshape⟩ := h
    refine ⟨S.length + 2, ?_⟩
    unfold make_new_fn_unique
    rw [show S.length + 2 = (S.length + 1) + 1 from rfl, makeUniqueGo_succ]
    by_cases hex : decide (n0 ∈ S) = true
    · rw [if_pos hex]
      by_cases heq : old_fn = n0
      · rw [if_pos heq]
        rfl
      · rw [if_neg heq]
        obtain ⟨i, hi1, hi2, hfree⟩ := exists_free_probe S d1 d2
        have hgood : (fun x => decide (x ∈ S))
              (d1 ++ '_' :: (d2 ++ '-' :: (natToDec i ++ dotJpg))) = false
            ∨ old_fn = d1 ++ '_' :: (d2 ++ '-' :: (natToDec i ++ dotJpg)) :=
          Or.inl (by simpa using hfree)
        rcases hshape with hA | ⟨d3, h3, a3, hB⟩
        · have hstep : subTs2 1 (subTs1 1 n0)
              = d1 ++ '_' :: (d2 ++ '-' :: (natToDec 1 ++ dotJpg)) := by
            rw [hA, subTs1_noSuffix 1 d1 d2 h1 h2 a1 a2,
                subTs2_noSuffix 1 d1 d2 h1 h2 a1 a2]
          rw [hstep]
          exact makeUniqueGo_reaches (fun x => decide (x ∈ S)) old_fn d1 d2 h1 h2 a1 a2
            (S.length + 1) 1 (by omega) ⟨i, by omega, by omega, hgood⟩
        · have hstep : subTs2 1 (subTs1 1 n0)
              = d1 ++ '_' :: (d2 ++ '-' :: (natToDec 1 ++ dotJpg)) := by
            rw [hB, subTs1_suffix 1 d1 d2 d3 h1 h2 h3 a1 a2 a3,
                subTs2_suffix 1 d1 d2 (natToDec 1) h1 h2 a1 a2]
          rw [hstep]
          exact makeUniqueGo_reaches (fun x => decide (x ∈ S)) old_fn d1 d2 h1 h2 a1 a2
            (S.length + 1) 1 (by omega) ⟨i, by omega, by omega, hgood⟩
    · rw [if_neg hex]
      rfl

/-- Claim C7 witness: a timestamp-shaped candidate colliding with a
directory entry terminates (with some fuel) even though it differs from
its original name. -/
theorem c7_witness :
    makeUniqueTerminates
      (fun x => decide (x ∈ (["20140816_062030.jpg".data] : List Str)))
      "x.jpg".data "20140816_062030.jpg".data :=
  c7_amended_termination ["20140816_062030.jpg".data] "x.jpg".data
    "20140816_062030.jpg".data
    (Or.inr (Or.inr ⟨"20140816".data, "062030".data, by decide, by decide, by decide,
      by decide, Or.inl (by decide)⟩))
